import Mathlib

/-!
Task synchronization controller of `src/App.jsx`.

A shallow embedding of the `App` component's state and handlers.

* The eight `useState` cells become the fields of `State`.
* A handler is an `async` arrow function.  It reads the state cells through the
  closure of the render in which it was created (the *captured* state), may issue
  one axios request, and after the `await` calls setters.  A setter writes one cell
  of the state that is current when the continuation runs.  `Handler.await` keeps the
  two apart: the request and the continuation are computed from the captured state,
  and the continuation maps the current state to the next one.
* A rejected axios promise and a `TypeError` raised inside `try` both reach the
  `catch` block; `console.error` has no effect on the state and is left out.
* JS arrays are lists: `find` is `List.find?`, `filter` is `List.filter`,
  `map` is `List.map`, and `[...todos, x]` is `todos ++ [x]`.
-/

namespace TodoApp

/-- Task identifier.  The task JSON shape has `id: string|number`; ids arrive as
JSON, so a numeric id is a finite number and `===` is plain equality, with a
number never equal to a string. -/
inductive TaskId where
  | num (n : Int)
  | str (s : String)
  deriving DecidableEq, Repr

/-- Task as returned by the remote store: `{id, title, completed}`. -/
structure Todo where
  id : TaskId
  title : String
  completed : Bool
  deriving DecidableEq, Repr

/-- State cells of `App` (lines 8-17), in declaration order. -/
structure State where
  todos : List Todo
  loading : Bool
  error : Option String
  task : String
  editIndex : Option TaskId
  editText : String
  filter : String
  darkMode : Bool
  deriving DecidableEq, Repr

/-- Initial values of the state cells; `darkMode` is read from local storage. -/
def initialState (darkMode : Bool) : State :=
  { todos := [], loading := true, error := none, task := "", editIndex := none,
    editText := "", filter := "all", darkMode := darkMode }

/-- Requests the handlers send through axios. -/
inductive Request where
  | get
  | post (title : String)
  | put (id : TaskId) (title : String) (completed : Bool)
  | delete (id : TaskId)
  deriving DecidableEq, Repr

/-- Result of awaiting an axios promise: resolved with `response.data`, or rejected. -/
inductive Outcome (α : Type) where
  | ok (data : α)
  | fail
  deriving DecidableEq, Repr

/-- What one invocation of a handler does.  `done` : no request is sent and the
setters in `effect` run.  `await` : `req` is sent and `resume` runs when the
response arrives, on the state current at that time. -/
inductive Handler (α : Type) where
  | done (effect : State → State)
  | await (req : Request) (resume : Outcome α → State → State)

/-- The request a handler invocation sends, if any. -/
def Handler.request? {α : Type} : Handler α → Option Request
  | .done _ => none
  | .await req _ => some req

/-- State after the handler has finished: `o` is the outcome of its request (unused
when no request was sent) and `s` the state current when its setters run. -/
def Handler.finish {α : Type} : Handler α → Outcome α → State → State
  | .done effect, _, s => effect s
  | .await _ resume, o, s => resume o s

/-- WhiteSpace and LineTerminator code points, the ones `String.prototype.trim`
strips. -/
def isWhiteSpace (c : Char) : Bool :=
  c.toNat ∈ [0x09, 0x0A, 0x0B, 0x0C, 0x0D, 0x20, 0xA0, 0x1680, 0x2000, 0x2001, 0x2002,
    0x2003, 0x2004, 0x2005, 0x2006, 0x2007, 0x2008, 0x2009, 0x200A, 0x2028, 0x2029,
    0x202F, 0x205F, 0x3000, 0xFEFF]

/-- `String.prototype.trim` on the list of characters. -/
def trimChars (l : List Char) : List Char :=
  ((l.dropWhile isWhiteSpace).reverse.dropWhile isWhiteSpace).reverse

/-- `String.prototype.trim`. -/
def trim (s : String) : String := ⟨trimChars s.data⟩

/-- `fetchTodos` (lines 24-34). -/
def fetchTodos (_c : State) : Handler (List Todo) :=
  .await .get fun o s =>
    match o with
    | .ok data => { s with todos := data, loading := false }
    | .fail => { s with error := some "Failed to load todos", loading := false }

/-- `addTask` (lines 40-52). -/
def addTask (c : State) : Handler Todo :=
  if trim c.task = "" then .done id
  else
    .await (.post c.task) fun o s =>
      match o with
      | .ok data => { s with todos := c.todos ++ [data], task := "" }
      | .fail => { s with error := some "Failed to add task." }

/-- `removeTask` (lines 54-61).  The response of the delete request is not read, so
its type is arbitrary. -/
def removeTask {α : Type} (c : State) (id : TaskId) : Handler α :=
  .await (.delete id) fun o s =>
    match o with
    | .ok _ => { s with todos := c.todos.filter fun todo => todo.id ≠ id }
    | .fail => { s with error := some "Failed to delete task" }

/-- `toggleComplete` (lines 63-74).  When `find` returns `undefined`, reading
`todo.title` throws inside `try`, before the request is built. -/
def toggleComplete (c : State) (id : TaskId) : Handler Todo :=
  match c.todos.find? fun t => t.id = id with
  | none => .done fun s => { s with error := some "Failed to update task" }
  | some todo =>
    .await (.put id todo.title (!todo.completed)) fun o s =>
      match o with
      | .ok data => { s with todos := c.todos.map fun t => if t.id = id then data else t }
      | .fail => { s with error := some "Failed to update task" }

/-- `saveEdit` (lines 82-94).  When `find` returns `undefined`, reading
`todo.completed` throws inside `try`, before the request is built. -/
def saveEdit (c : State) (id : TaskId) : Handler Todo :=
  match c.todos.find? fun t => t.id = id with
  | none => .done fun s => { s with error := some "Failed to update task" }
  | some todo =>
    .await (.put id c.editText todo.completed) fun o s =>
      match o with
      | .ok data =>
        { s with todos := c.todos.map (fun t => if t.id = id then data else t),
                 editIndex := none }
      | .fail => { s with error := some "Failed to update task" }

/-- `filterTasks` (lines 96-100). -/
def filterTasks (c : State) : List Todo :=
  if c.filter = "completed" then c.todos.filter fun t => t.completed
  else if c.filter = "pending" then c.todos.filter fun t => !t.completed
  else c.todos

/-- `onChange` of the input field (line 130): `setTask(e.target.value)`. -/
def setTask (v : String) (s : State) : State := { s with task := v }

/-- `onClick` of the filter buttons (lines 136-138): `setFilter(v)`. -/
def setFilter (v : String) (s : State) : State := { s with filter := v }

/-- A handler invoked on the state `s` whose continuation runs before anything else
changes the state: captured and current state coincide. -/
def runOn {α : Type} (h : State → Handler α) (o : Outcome α) (s : State) : State :=
  (h s).finish o s

/-- A run of add operations applied in turn: for each pair the user types the text
into the input field, clicks the button, and the create request resolves with the
given task before the next one starts. -/
def addAll (s : State) (calls : List (String × Todo)) : State :=
  calls.foldl (fun st p => runOn addTask (.ok p.2) (setTask p.1 st)) s

/-- The response `data` is the task exactly as the update request `req` submitted
it: same id, the submitted title and the submitted completed flag. -/
def asSubmitted (req : Option Request) (data : Todo) : Prop :=
  req = some (.put data.id data.title data.completed)

/-- Two handlers invoked on the same state `s` before either response arrives: both
capture `s`; the continuation of the first runs on `s`, the continuation of the
second on the state the first one left. -/
def raceOn {α β : Type} (h₁ : State → Handler α) (h₂ : State → Handler β)
    (o₁ : Outcome α) (o₂ : Outcome β) (s : State) : State :=
  (h₂ s).finish o₂ ((h₁ s).finish o₁ s)

/-- The mutating operations a user can start from a row or from the add button. -/
inductive Mutation where
  | add
  | toggle (id : TaskId)
  deriving DecidableEq, Repr

/-- The handler behind a mutating operation. -/
def Mutation.handler : Mutation → State → Handler Todo
  | .add, c => addTask c
  | .toggle id, c => toggleComplete c id

/-- State with the given task collection and every other cell as after the initial
fetch. -/
def loaded (todos : List Todo) : State :=
  { initialState false with todos := todos, loading := false }

end TodoApp

namespace TodoApp

/-! Auxiliary facts -/

theorem find?_id_of_mem (l : List Todo) (id : TaskId) (h : ∃ t ∈ l, t.id = id) :
    ∃ todo, l.find? (fun t => t.id = id) = some todo ∧ todo ∈ l ∧ todo.id = id := by
  obtain ⟨t, ht, hid⟩ := h
  cases hf : l.find? (fun t => t.id = id) with
  | none =>
    have := List.find?_eq_none.mp hf t ht
    simp [hid] at this
  | some todo =>
    refine ⟨todo, rfl, List.mem_of_find?_eq_some hf, ?_⟩
    simpa using List.find?_some hf

theorem find?_id_none_of_not_mem (l : List Todo) (id : TaskId) (h : ∀ t ∈ l, t.id ≠ id) :
    l.find? (fun t => t.id = id) = none := by
  rw [List.find?_eq_none]
  intro t ht
  simpa using h t ht

theorem dropWhile_eq_nil_of_all (l : List Char) (h : ∀ ch ∈ l, isWhiteSpace ch = true) :
    l.dropWhile isWhiteSpace = [] := by
  induction l with
  | nil => rfl
  | cons a t ih =>
    have ha : isWhiteSpace a = true := h a (List.mem_cons_self a t)
    simp only [List.dropWhile_cons, ha, if_true]
    exact ih fun ch hch => h ch (List.mem_cons_of_mem a hch)

theorem all_of_dropWhile_eq_nil (l : List Char) (h : l.dropWhile isWhiteSpace = []) :
    ∀ ch ∈ l, isWhiteSpace ch = true := by
  induction l with
  | nil => simp
  | cons a t ih =>
    by_cases ha : isWhiteSpace a = true
    · simp only [List.dropWhile_cons, ha, if_true] at h
      intro ch hch
      rcases List.mem_cons.mp hch with rfl | hmem
      · exact ha
      · exact ih h ch hmem
    · simp [List.dropWhile_cons, ha] at h

/-- The guard of `addTask` : the trimmed text is empty exactly when every character
of the text is white space (the empty text included). -/
theorem trim_eq_empty_iff (s : String) :
    trim s = "" ↔ ∀ ch ∈ s.data, isWhiteSpace ch = true := by
  have key : trimChars s.data = [] ↔ ∀ ch ∈ s.data, isWhiteSpace ch = true := by
    constructor
    · intro h
      have h1 : (s.data.dropWhile isWhiteSpace).reverse.dropWhile isWhiteSpace = [] := by
        simpa [trimChars] using h
      have h2 := all_of_dropWhile_eq_nil _ h1
      have h3 : s.data.dropWhile isWhiteSpace = [] := by
        cases hd : s.data.dropWhile isWhiteSpace with
        | nil => rfl
        | cons a t =>
          have hna : ¬ isWhiteSpace a = true := by
            have := List.head_dropWhile_not isWhiteSpace s.data (by simp [hd])
            simpa [hd] using this
          exact absurd (h2 a (by simp [hd])) hna
      exact all_of_dropWhile_eq_nil _ h3
    · intro h
      simp [trimChars, dropWhile_eq_nil_of_all _ h]
  rw [← key]
  constructor
  · intro h
    have := congrArg String.data h
    simpa [trim] using this
  · intro h
    simp [trim, h]

/-! Toggle, add, failure and filter -/

/-- C1. For every task collection and every id present in it, a successful
`toggleComplete(id)` sends an update request carrying the title and the negated
completed flag of the task that `find` returns for the id, and leaves the state
with the collection in which every entry with that id is replaced by the server
response: the length is unchanged, and at every position an entry with a different
id is kept while an entry with the id becomes the response. -/
theorem toggleComplete_success (c : State) (id : TaskId) (data : Todo)
    (hid : ∃ t ∈ c.todos, t.id = id) :
    ∃ todo, c.todos.find? (fun t => t.id = id) = some todo ∧ todo ∈ c.todos ∧ todo.id = id ∧
      (toggleComplete c id).request? = some (.put id todo.title (!todo.completed)) ∧
      runOn (fun st => toggleComplete st id) (.ok data) c
        = { c with todos := c.todos.map fun t => if t.id = id then data else t } ∧
      (runOn (fun st => toggleComplete st id) (.ok data) c).todos.length = c.todos.length ∧
      ∀ (i : Nat) (t : Todo), c.todos[i]? = some t →
        (t.id ≠ id → (runOn (fun st => toggleComplete st id) (.ok data) c).todos[i]? = some t) ∧
        (t.id = id → (runOn (fun st => toggleComplete st id) (.ok data) c).todos[i]? = some data) := by
  obtain ⟨todo, hf, hmem, htid⟩ := find?_id_of_mem c.todos id hid
  have hrun : runOn (fun st => toggleComplete st id) (.ok data) c
      = { c with todos := c.todos.map fun t => if t.id = id then data else t } := by
    simp only [runOn, toggleComplete, hf, Handler.finish]
  refine ⟨todo, hf, hmem, htid, ?_, hrun, ?_, ?_⟩
  · simp only [toggleComplete, hf, Handler.request?]
  · rw [hrun]; simp
  · intro i t hi
    rw [hrun]
    constructor
    · intro hne
      simp [List.getElem?_map, hi, hne]
    · intro heq
      simp [List.getElem?_map, hi, heq]

/-- Scenario of C1: the collection `[{id:1,title:"A",completed:false}]` with
`toggle(1)` answered by `{id:1,title:"A",completed:true}` becomes
`[{id:1,title:"A",completed:true}]`. -/
theorem toggleComplete_success_witness :
    (∃ t ∈ (loaded [⟨.num 1, "A", false⟩]).todos, t.id = .num 1) ∧
    (toggleComplete (loaded [⟨.num 1, "A", false⟩]) (.num 1)).request?
      = some (.put (.num 1) "A" true) ∧
    (runOn (fun st => toggleComplete st (.num 1)) (.ok ⟨.num 1, "A", true⟩)
      (loaded [⟨.num 1, "A", false⟩])).todos = [⟨.num 1, "A", true⟩] := by
  have hid : ∃ t ∈ (loaded [⟨.num 1, "A", false⟩]).todos, t.id = .num 1 := by decide
  obtain ⟨todo, hf, _, _, hreq, hrun, _, _⟩ :=
    toggleComplete_success (loaded [⟨.num 1, "A", false⟩]) (.num 1) ⟨.num 1, "A", true⟩ hid
  have htodo : todo = ⟨.num 1, "A", false⟩ := by
    have : (loaded [⟨.num 1, "A", false⟩]).todos.find? (fun t => t.id = .num 1)
        = some ⟨.num 1, "A", false⟩ := by decide
    rw [this] at hf
    exact (Option.some.inj hf).symm
  subst htodo
  refine ⟨hid, hreq, ?_⟩
  rw [hrun]
  decide

theorem addAll_todos (calls : List (String × Todo)) :
    ∀ s : State, (∀ p ∈ calls, ∃ ch ∈ p.1.data, isWhiteSpace ch = false) →
      (addAll s calls).todos = s.todos ++ calls.map Prod.snd ∧
      (calls ≠ [] → (addAll s calls).task = "") := by
  induction calls with
  | nil => intro s _; simp [addAll]
  | cons p ps ih =>
    intro s h
    have hp : trim p.1 ≠ "" := by
      intro hblank
      obtain ⟨ch, hch, hws⟩ := h p (List.mem_cons_self p ps)
      have := (trim_eq_empty_iff p.1).mp hblank ch hch
      simp [hws] at this
    have hstep : runOn addTask (.ok p.2) (setTask p.1 s)
        = { s with todos := s.todos ++ [p.2], task := "" } := by
      simp [runOn, addTask, setTask, hp, Handler.finish]
    have hcons : addAll s (p :: ps) = addAll (runOn addTask (.ok p.2) (setTask p.1 s)) ps := by
      simp [addAll]
    obtain ⟨ih1, ih2⟩ := ih (runOn addTask (.ok p.2) (setTask p.1 s))
      fun q hq => h q (List.mem_cons_of_mem p hq)
    rw [hcons]
    constructor
    · rw [ih1, hstep]; simp
    · intro _
      by_cases hps : ps = []
      · subst hps; simp [addAll, hstep]
      · exact ih2 hps

/-- C2. For every initial state and every sequence of add operations whose input
text has a character that is not white space, all succeeding and applied in turn:
after the first `k` calls the collection is the initial one followed by the `k`
returned tasks in call order, its length is the initial length plus `k`, and the
input field is the empty string. -/
theorem addAll_appends_in_order (s : State) (calls : List (String × Todo))
    (h : ∀ p ∈ calls, ∃ ch ∈ p.1.data, isWhiteSpace ch = false) :
    ∀ k, k ≤ calls.length →
      (addAll s (calls.take k)).todos = s.todos ++ (calls.take k).map Prod.snd ∧
      (addAll s (calls.take k)).todos.length = s.todos.length + k ∧
      (0 < k → (addAll s (calls.take k)).task = "") := by
  intro k hk
  obtain ⟨h1, h2⟩ := addAll_todos (calls.take k) s
    fun p hp => h p (List.mem_of_mem_take hp)
  refine ⟨h1, ?_, ?_⟩
  · rw [h1]; simp [Nat.min_eq_left hk]
  · intro hpos
    apply h2
    intro hnil
    have hlen : (calls.take k).length = 0 := by rw [hnil]; rfl
    rw [List.length_take, Nat.min_eq_left hk] at hlen
    omega

/-- Scenario of C2: `add("Buy milk")` answered by
`{id:7,title:"Buy milk",completed:false}` puts that entry last and resets the input
field. -/
theorem addAll_appends_in_order_witness :
    (addAll (loaded [⟨.num 1, "A", false⟩]) [("Buy milk", ⟨.num 7, "Buy milk", false⟩)]).todos
      = [⟨.num 1, "A", false⟩, ⟨.num 7, "Buy milk", false⟩] ∧
    (addAll (loaded [⟨.num 1, "A", false⟩]) [("Buy milk", ⟨.num 7, "Buy milk", false⟩)]).task
      = "" := by
  have h := addAll_appends_in_order (loaded [⟨.num 1, "A", false⟩])
    [("Buy milk", ⟨.num 7, "Buy milk", false⟩)] (by decide) 1 (by decide)
  exact ⟨h.1, h.2.2 (by decide)⟩

/-- C3. For every captured state `c`, every state `s` current when the continuation
runs and every id: a rejected request of `fetchTodos`, `addTask` (when it sent one),
`removeTask`, `toggleComplete` or `saveEdit` leaves the task collection as it was and
sets the error message to that operation's failure message; a failed `addTask` also
leaves the input field as it was. -/
theorem failed_operation_keeps_todos (α : Type) (c s : State) (id : TaskId) :
    (((fetchTodos c).finish .fail s).todos = s.todos ∧
      ((fetchTodos c).finish .fail s).error = some "Failed to load todos") ∧
    ((addTask c).request?.isSome = true →
      ((addTask c).finish .fail s).todos = s.todos ∧
      ((addTask c).finish .fail s).error = some "Failed to add task." ∧
      ((addTask c).finish .fail s).task = s.task) ∧
    (((removeTask c id : Handler α).finish .fail s).todos = s.todos ∧
      ((removeTask c id : Handler α).finish .fail s).error = some "Failed to delete task") ∧
    (((toggleComplete c id).finish .fail s).todos = s.todos ∧
      ((toggleComplete c id).finish .fail s).error = some "Failed to update task") ∧
    (((saveEdit c id).finish .fail s).todos = s.todos ∧
      ((saveEdit c id).finish .fail s).error = some "Failed to update task") := by
  refine ⟨⟨rfl, rfl⟩, ?_, ⟨rfl, rfl⟩, ?_, ?_⟩
  · intro hreq
    by_cases hb : trim c.task = ""
    · simp [addTask, hb, Handler.request?] at hreq
    · simp [addTask, hb, Handler.finish]
  · cases hf : c.todos.find? (fun t => t.id = id) <;>
      simp [toggleComplete, hf, Handler.finish]
  · cases hf : c.todos.find? (fun t => t.id = id) <;>
      simp [saveEdit, hf, Handler.finish]

/-- Scenario of C3: `delete(3)` failing leaves the collection unchanged and sets the
error to the delete-failure message; a failing add of "Buy milk" keeps the input. -/
theorem failed_operation_keeps_todos_witness :
    (addTask (setTask "Buy milk" (loaded [⟨.num 3, "A", false⟩]))).request?.isSome = true ∧
    (runOn addTask .fail (setTask "Buy milk" (loaded [⟨.num 3, "A", false⟩]))).task
      = "Buy milk" ∧
    (runOn (fun st => removeTask st (.num 3)) (.fail : Outcome Unit)
      (loaded [⟨.num 3, "A", false⟩])).todos = [⟨.num 3, "A", false⟩] ∧
    (runOn (fun st => removeTask st (.num 3)) (.fail : Outcome Unit)
      (loaded [⟨.num 3, "A", false⟩])).error = some "Failed to delete task" := by
  have hreq : (addTask (setTask "Buy milk" (loaded [⟨.num 3, "A", false⟩]))).request?.isSome
      = true := by decide
  have hadd := (failed_operation_keeps_todos Unit
    (setTask "Buy milk" (loaded [⟨.num 3, "A", false⟩]))
    (setTask "Buy milk" (loaded [⟨.num 3, "A", false⟩])) (.num 3)).2.1 hreq
  have hdel := (failed_operation_keeps_todos Unit (loaded [⟨.num 3, "A", false⟩])
    (loaded [⟨.num 3, "A", false⟩]) (.num 3)).2.2.1
  exact ⟨hreq, hadd.2.2, hdel.1, hdel.2⟩

/-- C4. For every state: `filterTasks` with filter "all" returns the collection
itself; with "completed" exactly the entries whose completed flag is true, in their
original relative order; with "pending" exactly those whose flag is false, in their
original relative order; applying the current filter to its own result returns that
result again; and selecting "pending" and then "all" leaves the stored collection
as it was and shows all of it.  `filterTasks` calls no setter: it is a function from
the state to the displayed list. -/
theorem filterTasks_view (c : State) :
    filterTasks (setFilter "all" c) = c.todos ∧
    (filterTasks (setFilter "completed" c) = c.todos.filter (fun t => t.completed) ∧
      (filterTasks (setFilter "completed" c)).Sublist c.todos ∧
      ∀ t, t ∈ filterTasks (setFilter "completed" c) ↔ t ∈ c.todos ∧ t.completed = true) ∧
    (filterTasks (setFilter "pending" c) = c.todos.filter (fun t => !t.completed) ∧
      (filterTasks (setFilter "pending" c)).Sublist c.todos ∧
      ∀ t, t ∈ filterTasks (setFilter "pending" c) ↔ t ∈ c.todos ∧ t.completed = false) ∧
    filterTasks { c with todos := filterTasks c } = filterTasks c ∧
    (setFilter "all" (setFilter "pending" c)).todos = c.todos ∧
    filterTasks (setFilter "all" (setFilter "pending" c)) = c.todos := by
  have hall : filterTasks (setFilter "all" c) = c.todos := by
    simp [filterTasks, setFilter]
  have hcomp : filterTasks (setFilter "completed" c) = c.todos.filter (fun t => t.completed) := by
    simp [filterTasks, setFilter]
  have hpend : filterTasks (setFilter "pending" c) = c.todos.filter (fun t => !t.completed) := by
    simp [filterTasks, setFilter]
  refine ⟨hall, ⟨hcomp, ?_, ?_⟩, ⟨hpend, ?_, ?_⟩, ?_, rfl, ?_⟩
  · rw [hcomp]; exact List.filter_sublist c.todos
  · intro t; rw [hcomp]; simp [List.mem_filter]
  · rw [hpend]; exact List.filter_sublist c.todos
  · intro t; rw [hpend]; simp [List.mem_filter]
  · unfold filterTasks
    by_cases h1 : c.filter = "completed"
    · simp [h1]
    · by_cases h2 : c.filter = "pending"
      · simp [h2]
      · simp [h1, h2]
  · simp [filterTasks, setFilter]

/-- C6. For every captured state `c` and every current state `s` in which the row
`id` is being edited: when `saveEdit(id)` fails (its request is rejected, or the
lookup throws and no request is sent) the row is still being edited, the scratch
text and the collection are as they were and the error message is
"Failed to update task"; the edit marker is cleared exactly when the request was
sent and succeeded. -/
theorem saveEdit_failure_stays_editing (c s : State) (id : TaskId) (o : Outcome Todo)
    (hedit : s.editIndex = some id) :
    ((o = .fail ∨ (saveEdit c id).request? = none) →
      ((saveEdit c id).finish o s).editIndex = some id ∧
      ((saveEdit c id).finish o s).editText = s.editText ∧
      ((saveEdit c id).finish o s).error = some "Failed to update task" ∧
      ((saveEdit c id).finish o s).todos = s.todos) ∧
    (((saveEdit c id).finish o s).editIndex = none ↔
      (∃ data, o = .ok data) ∧ (saveEdit c id).request?.isSome = true) := by
  cases hf : c.todos.find? (fun t => t.id = id) with
  | none => simp [saveEdit, hf, Handler.finish, Handler.request?, hedit]
  | some todo =>
    cases o with
    | ok data => simp [saveEdit, hf, Handler.finish, Handler.request?]
    | fail => simp [saveEdit, hf, Handler.finish, Handler.request?, hedit]

/-- Row 1 is being edited with scratch text "B" and the update is rejected: the row
stays in Editing; when the update succeeds the marker is cleared. -/
theorem saveEdit_failure_stays_editing_witness :
    (runOn (fun st => saveEdit st (.num 1)) .fail
      { loaded [⟨.num 1, "A", false⟩] with editIndex := some (.num 1), editText := "B" }).editIndex
      = some (.num 1) ∧
    (runOn (fun st => saveEdit st (.num 1)) .fail
      { loaded [⟨.num 1, "A", false⟩] with editIndex := some (.num 1), editText := "B" }).editText
      = "B" := by
  have h := (saveEdit_failure_stays_editing
    { loaded [⟨.num 1, "A", false⟩] with editIndex := some (.num 1), editText := "B" }
    { loaded [⟨.num 1, "A", false⟩] with editIndex := some (.num 1), editText := "B" }
    (.num 1) .fail rfl).1 (Or.inl rfl)
  exact ⟨h.1, h.2.1⟩

/-- C8. For every state whose input field is empty or holds only white space,
`addTask` sends no request and leaves the whole state (collection, input field and
error message included) exactly as it was, whatever state is current. -/
theorem addTask_blank_ignored (c : State)
    (hblank : ∀ ch ∈ c.task.data, isWhiteSpace ch = true) :
    (addTask c).request? = none ∧
    (∀ (o : Outcome Todo) (s : State), (addTask c).finish o s = s) ∧
    ∀ o : Outcome Todo, (runOn addTask o c).todos.length = c.todos.length ∧
      (runOn addTask o c).task = c.task ∧ (runOn addTask o c).error = c.error := by
  have hb : trim c.task = "" := (trim_eq_empty_iff c.task).mpr hblank
  have hfin : ∀ (o : Outcome Todo) (s : State), (addTask c).finish o s = s := by
    intro o s; simp [addTask, hb, Handler.finish]
  refine ⟨by simp [addTask, hb, Handler.request?], hfin, ?_⟩
  intro o
  simp [runOn, hfin]

/-- An input of three spaces: no request and the state is left as it was. -/
theorem addTask_blank_ignored_witness :
    (∀ ch ∈ (setTask "   " (loaded [⟨.num 1, "A", false⟩])).task.data, isWhiteSpace ch = true) ∧
    (addTask (setTask "   " (loaded [⟨.num 1, "A", false⟩]))).request? = none ∧
    runOn addTask (.ok ⟨.num 2, "   ", false⟩) (setTask "   " (loaded [⟨.num 1, "A", false⟩]))
      = setTask "   " (loaded [⟨.num 1, "A", false⟩]) := by
  have hblank : ∀ ch ∈ (setTask "   " (loaded [⟨.num 1, "A", false⟩])).task.data,
      isWhiteSpace ch = true := by decide
  have h := addTask_blank_ignored (setTask "   " (loaded [⟨.num 1, "A", false⟩])) hblank
  exact ⟨hblank, h.1, h.2.1 _ _⟩

/-- C9. For every task collection and every id that no entry has, the collection
after `removeTask(id)` equals the collection before it, whether the delete request
succeeds, with a response of any type and content, or fails. -/
theorem removeTask_absent_id_noop (α : Type) (c : State) (id : TaskId) (o : Outcome α)
    (habsent : ∀ t ∈ c.todos, t.id ≠ id) :
    (runOn (fun st => removeTask st id) o c).todos = c.todos := by
  cases o with
  | ok data =>
    simp only [runOn, removeTask, Handler.finish]
    rw [List.filter_eq_self]
    intro t ht
    simpa using habsent t ht
  | fail => rfl

/-- Deleting id 9 from a collection that holds ids 1 and 2 changes nothing, on
success and on failure. -/
theorem removeTask_absent_id_noop_witness :
    (∀ t ∈ (loaded [⟨.num 1, "A", false⟩, ⟨.num 2, "B", true⟩]).todos, t.id ≠ .num 9) ∧
    (runOn (fun st => removeTask st (.num 9)) (.ok "gone")
      (loaded [⟨.num 1, "A", false⟩, ⟨.num 2, "B", true⟩])).todos
      = [⟨.num 1, "A", false⟩, ⟨.num 2, "B", true⟩] ∧
    (runOn (fun st => removeTask st (.num 9)) (.fail : Outcome String)
      (loaded [⟨.num 1, "A", false⟩, ⟨.num 2, "B", true⟩])).todos
      = [⟨.num 1, "A", false⟩, ⟨.num 2, "B", true⟩] := by
  have habsent : ∀ t ∈ (loaded [⟨.num 1, "A", false⟩, ⟨.num 2, "B", true⟩]).todos,
      t.id ≠ .num 9 := by decide
  exact ⟨habsent,
    removeTask_absent_id_noop String _ (.num 9) (.ok "gone") habsent,
    removeTask_absent_id_noop String _ (.num 9) .fail habsent⟩

/-! Double toggle, blank titles and concurrent operations -/

/-- C5 fails on a collection in which two entries share an id: `find` picks the
first of them, the update request carries that entry's title and flag, and `map`
writes the response over both.  After two echoed toggles of id 1 the second entry
`{id:1,title:"B",completed:true}` has become `{id:1,title:"A",completed:false}`. -/
theorem toggleComplete_twice_shared_id :
    (⟨.num 1, "B", true⟩ : Todo) ∈ (loaded [⟨.num 1, "A", false⟩, ⟨.num 1, "B", true⟩]).todos ∧
    asSubmitted
      (toggleComplete (loaded [⟨.num 1, "A", false⟩, ⟨.num 1, "B", true⟩]) (.num 1)).request?
      ⟨.num 1, "A", true⟩ ∧
    asSubmitted
      (toggleComplete (runOn (fun st => toggleComplete st (.num 1)) (.ok ⟨.num 1, "A", true⟩)
        (loaded [⟨.num 1, "A", false⟩, ⟨.num 1, "B", true⟩])) (.num 1)).request?
      ⟨.num 1, "A", false⟩ ∧
    (runOn (fun st => toggleComplete st (.num 1)) (.ok ⟨.num 1, "A", false⟩)
      (runOn (fun st => toggleComplete st (.num 1)) (.ok ⟨.num 1, "A", true⟩)
        (loaded [⟨.num 1, "A", false⟩, ⟨.num 1, "B", true⟩]))).todos
      = [⟨.num 1, "A", false⟩, ⟨.num 1, "A", false⟩] ∧
    (runOn (fun st => toggleComplete st (.num 1)) (.ok ⟨.num 1, "A", false⟩)
      (runOn (fun st => toggleComplete st (.num 1)) (.ok ⟨.num 1, "A", true⟩)
        (loaded [⟨.num 1, "A", false⟩, ⟨.num 1, "B", true⟩]))).todos
      ≠ (loaded [⟨.num 1, "A", false⟩, ⟨.num 1, "B", true⟩]).todos := by
  refine ⟨by decide, ?_, ?_, by decide, by decide⟩
  · unfold asSubmitted; decide
  · unfold asSubmitted; decide

/-- C5, amended. For every state and every task `T` of its collection such that every
entry with the id of `T` equals `T` (so in every collection with unique ids): when each
of two successive successful `toggleComplete(T.id)` calls is answered with the task as
submitted, the second response is `T` itself (original id, title and completed flag)
and the state, its collection included, equals the original. -/
theorem toggleComplete_twice_restores (c : State) (T d₁ d₂ : Todo)
    (hT : T ∈ c.todos)
    (honly : ∀ t ∈ c.todos, t.id = T.id → t = T)
    (h₁ : asSubmitted (toggleComplete c T.id).request? d₁)
    (h₂ : asSubmitted
      (toggleComplete (runOn (fun st => toggleComplete st T.id) (.ok d₁) c) T.id).request? d₂) :
    d₁ = ⟨T.id, T.title, !T.completed⟩ ∧ d₂ = T ∧
    runOn (fun st => toggleComplete st T.id) (.ok d₂)
      (runOn (fun st => toggleComplete st T.id) (.ok d₁) c) = c := by
  -- first call: `find` returns `T`
  have hf₁ : c.todos.find? (fun t => t.id = T.id) = some T := by
    obtain ⟨todo, hf, hmem, hid⟩ := find?_id_of_mem c.todos T.id ⟨T, hT, rfl⟩
    rw [hf, honly todo hmem hid]
  have hd₁ : d₁ = ⟨T.id, T.title, !T.completed⟩ := by
    simp only [asSubmitted, toggleComplete, hf₁, Handler.request?, Option.some.injEq,
      Request.put.injEq] at h₁
    obtain ⟨hi, ht, hc⟩ := h₁
    cases d₁
    simp_all
  have hs₁ : runOn (fun st => toggleComplete st T.id) (.ok d₁) c
      = { c with todos := c.todos.map fun t => if t.id = T.id then d₁ else t } := by
    simp only [runOn, toggleComplete, hf₁, Handler.finish]
  rw [hs₁] at h₂ ⊢
  have hd₁id : d₁.id = T.id := by rw [hd₁]
  -- second call: `find` returns the first response
  have hf₂ : (c.todos.map fun t => if t.id = T.id then d₁ else t).find? (fun t => t.id = T.id)
      = some d₁ := by
    obtain ⟨todo, hf, hmem, hid⟩ := find?_id_of_mem
      (c.todos.map fun t => if t.id = T.id then d₁ else t) T.id
      ⟨d₁, List.mem_map.mpr ⟨T, hT, by simp⟩, hd₁id⟩
    rw [hf]
    obtain ⟨t, _, ht⟩ := List.mem_map.mp hmem
    by_cases hc : t.id = T.id
    · simp [hc] at ht; rw [ht]
    · simp [hc] at ht; rw [ht] at hc; exact absurd hid hc
  have hd₂ : d₂ = T := by
    simp only [asSubmitted, toggleComplete, hf₂, Handler.request?, Option.some.injEq,
      Request.put.injEq] at h₂
    obtain ⟨hi, ht, hc⟩ := h₂
    rw [hd₁] at ht hc
    cases d₂
    cases T
    simp_all
  refine ⟨hd₁, hd₂, ?_⟩
  simp only [runOn, toggleComplete, hf₂, Handler.finish]
  have hmap : ((c.todos.map fun t => if t.id = T.id then d₁ else t).map
      fun t => if t.id = T.id then d₂ else t) = c.todos := by
    rw [List.map_map]
    conv_rhs => rw [← List.map_id c.todos]
    apply List.map_congr_left
    intro t ht
    by_cases hc : t.id = T.id
    · simp [hc, hd₁id, hd₂, honly t ht hc]
    · simp [hc]
  rw [hmap]

/-- Two echoed toggles of id 1 in `[{id:1,title:"A",completed:false},
{id:2,title:"B",completed:true}]` give back the same state. -/
theorem toggleComplete_twice_restores_witness :
    runOn (fun st => toggleComplete st (.num 1)) (.ok ⟨.num 1, "A", false⟩)
      (runOn (fun st => toggleComplete st (.num 1)) (.ok ⟨.num 1, "A", true⟩)
        (loaded [⟨.num 1, "A", false⟩, ⟨.num 2, "B", true⟩]))
      = loaded [⟨.num 1, "A", false⟩, ⟨.num 2, "B", true⟩] :=
  (toggleComplete_twice_restores (loaded [⟨.num 1, "A", false⟩, ⟨.num 2, "B", true⟩])
    ⟨.num 1, "A", false⟩ ⟨.num 1, "A", true⟩ ⟨.num 1, "A", false⟩
    (by decide) (by decide) (by unfold asSubmitted; decide)
    (by unfold asSubmitted; decide)).2.2

/-- C7 at the failing input: row 1 is being edited and the scratch buffer holds three
spaces, or nothing.  `saveEdit(1)` sends an update request whose title is that text,
although it trims to the empty string; `addTask` on the same text sends nothing. -/
theorem saveEdit_submits_blank_title :
    trim "   " = "" ∧
    (saveEdit { loaded [⟨.num 1, "A", false⟩] with editIndex := some (.num 1), editText := "   " }
      (.num 1)).request? = some (.put (.num 1) "   " false) ∧
    (saveEdit { loaded [⟨.num 1, "A", false⟩] with editIndex := some (.num 1), editText := "" }
      (.num 1)).request? = some (.put (.num 1) "" false) ∧
    (runOn (fun st => saveEdit st (.num 1)) (.ok ⟨.num 1, "   ", false⟩)
      { loaded [⟨.num 1, "A", false⟩] with editIndex := some (.num 1), editText := "   " }).todos
      = [⟨.num 1, "   ", false⟩] ∧
    (addTask (setTask "   " (loaded [⟨.num 1, "A", false⟩]))).request? = none := by
  decide

/-- C10 fails: two toggles on the distinct ids 1 and 2, both started on
`[{id:1,title:"A",completed:false},{id:2,title:"B",completed:false}]` and both
succeeding, leave only the response that arrived last, in either arrival order; two
adds started on the same state leave only the task of the later response. -/
theorem concurrent_toggles_lose_first_response :
    ((Mutation.toggle (.num 1)).handler
      (loaded [⟨.num 1, "A", false⟩, ⟨.num 2, "B", false⟩])).request?.isSome = true ∧
    ((Mutation.toggle (.num 2)).handler
      (loaded [⟨.num 1, "A", false⟩, ⟨.num 2, "B", false⟩])).request?.isSome = true ∧
    (raceOn (Mutation.toggle (.num 1)).handler (Mutation.toggle (.num 2)).handler
      (.ok ⟨.num 1, "A", true⟩) (.ok ⟨.num 2, "B", true⟩)
      (loaded [⟨.num 1, "A", false⟩, ⟨.num 2, "B", false⟩])).todos
      = [⟨.num 1, "A", false⟩, ⟨.num 2, "B", true⟩] ∧
    (⟨.num 1, "A", true⟩ : Todo) ∉
      (raceOn (Mutation.toggle (.num 1)).handler (Mutation.toggle (.num 2)).handler
        (.ok ⟨.num 1, "A", true⟩) (.ok ⟨.num 2, "B", true⟩)
        (loaded [⟨.num 1, "A", false⟩, ⟨.num 2, "B", false⟩])).todos ∧
    (raceOn (Mutation.toggle (.num 2)).handler (Mutation.toggle (.num 1)).handler
      (.ok ⟨.num 2, "B", true⟩) (.ok ⟨.num 1, "A", true⟩)
      (loaded [⟨.num 1, "A", false⟩, ⟨.num 2, "B", false⟩])).todos
      = [⟨.num 1, "A", true⟩, ⟨.num 2, "B", false⟩] ∧
    (⟨.num 2, "B", true⟩ : Todo) ∉
      (raceOn (Mutation.toggle (.num 2)).handler (Mutation.toggle (.num 1)).handler
        (.ok ⟨.num 2, "B", true⟩) (.ok ⟨.num 1, "A", true⟩)
        (loaded [⟨.num 1, "A", false⟩, ⟨.num 2, "B", false⟩])).todos ∧
    (raceOn Mutation.add.handler Mutation.add.handler
      (.ok ⟨.num 3, "C", false⟩) (.ok ⟨.num 4, "C", false⟩)
      (setTask "C" (loaded [⟨.num 1, "A", false⟩]))).todos
      = [⟨.num 1, "A", false⟩, ⟨.num 4, "C", false⟩] := by
  decide

/-- C10, amended. For every state `s` and every two mutating operations (toggles or
adds, on any ids) both started on `s` before either response arrives: when the
later-arriving one sent its request and succeeds with `r₂`, the collection after both
continuations have run is the one the later continuation computes from `s` alone,
that is `s.todos` with `r₂` appended for an add, or with the entries of the toggled
id replaced by `r₂` for a toggle; whatever the earlier continuation wrote is
overwritten. -/
theorem concurrent_mutations_last_response_wins (s : State) (m₁ m₂ : Mutation)
    (o₁ : Outcome Todo) (r₂ : Todo)
    (hsent : (m₂.handler s).request?.isSome = true) :
    (raceOn m₁.handler m₂.handler o₁ (.ok r₂) s).todos
      = (runOn m₂.handler (.ok r₂) s).todos ∧
    (m₂ = .add → (runOn m₂.handler (.ok r₂) s).todos = s.todos ++ [r₂]) ∧
    (∀ id, m₂ = .toggle id →
      (runOn m₂.handler (.ok r₂) s).todos
        = s.todos.map fun t => if t.id = id then r₂ else t) := by
  cases m₂ with
  | add =>
    by_cases hb : trim s.task = ""
    · simp [Mutation.handler, addTask, hb, Handler.request?] at hsent
    · simp [raceOn, runOn, Mutation.handler, addTask, hb, Handler.finish]
  | toggle id =>
    cases hf : s.todos.find? (fun t => t.id = id) with
    | none => simp [Mutation.handler, toggleComplete, hf, Handler.request?] at hsent
    | some todo => simp [raceOn, runOn, Mutation.handler, toggleComplete, hf, Handler.finish]

/-- A toggle of id 1 and an add of "C" started on the same state: the toggle's
response arrives first and is overwritten by the add's continuation. -/
theorem concurrent_mutations_last_response_wins_witness :
    (Mutation.add.handler (setTask "C" (loaded [⟨.num 1, "A", false⟩]))).request?.isSome
      = true ∧
    (raceOn (Mutation.toggle (.num 1)).handler Mutation.add.handler
      (.ok ⟨.num 1, "A", true⟩) (.ok ⟨.num 2, "C", false⟩)
      (setTask "C" (loaded [⟨.num 1, "A", false⟩]))).todos
      = [⟨.num 1, "A", false⟩, ⟨.num 2, "C", false⟩] := by
  have hsent : (Mutation.add.handler (setTask "C" (loaded [⟨.num 1, "A", false⟩]))).request?.isSome
      = true := by decide
  have h := concurrent_mutations_last_response_wins (setTask "C" (loaded [⟨.num 1, "A", false⟩]))
    (.toggle (.num 1)) .add (.ok ⟨.num 1, "A", true⟩) ⟨.num 2, "C", false⟩ hsent
  refine ⟨hsent, ?_⟩
  rw [h.1, h.2.1 rfl]
  decide

end TodoApp
